import Mathlib

/-!
Verification development for the tectonicdb tick server (`src/server.rs`).

The Rust source is shallowly embedded: `parse_line`, `Store` and its
operations, and the `gen_response` command dispatcher are translated
directly; machine integers (`u64`, `u32`, `i32`) become `Nat`/`Int` with
the relevant bounds made explicit where they matter; the `dtf` codec and
`Update::to_json`, which are not part of `src/server.rs`, are modelled
from the specification and marked as such in their doc comments.

The source's `f32` fields (`price`, `size`) are never inspected by any
property proved here, so a parsed float is carried as the exact source
text it was parsed from, together with a success predicate mirroring the
Rust `f32::from_str` grammar on the digit-and-dot strings the parser
builds.  Floating-point arithmetic itself is never needed.
-/

set_option maxRecDepth 4000
set_option maxHeartbeats 1600000

namespace Tectonic

/-- One tick record.  Mirrors `dtf::Update` as used by `src/server.rs`:
`ts : u64`, `seq : u32`, two flags, and two `f32` fields.  The floats are
carried as the source text token they were parsed from (see module
comment). -/
structure Update where
  ts : Nat
  seq : Nat
  is_trade : Bool
  is_bid : Bool
  price : String
  sz : String
deriving DecidableEq, Repr

/-- Result of `parse_line`: Rust returns `Option<Update>`; the
`panic!("IMPOSSIBLE")` arm (reached when a seventh field terminator
appears) is kept distinct from the `None` result. -/
inductive PRes where
  | ok (u : Update)
  | bad
  | crash
deriving DecidableEq, Repr

/-- The accumulator `parse_line` starts from
(`dtf::Update { ts: 0, seq: 0, is_bid: false, is_trade: false, price: -0.1, size: -0.1 }`). -/
def initU : Update :=
  { ts := 0, seq := 0, is_bid := false, is_trade := false, price := "-0.1", sz := "-0.1" }

/-- Decimal value of a digit list, most significant first — the value
Rust's integer `parse` computes on an all-digit string. -/
def digitsVal (l : List Char) : Nat :=
  l.foldl (fun a c => a * 10 + (c.toNat - 48)) 0

/-- Rust `str::parse::<uN>` on the buffers `parse_line` builds: succeeds
iff the string is nonempty, all decimal digits, and the value fits in
`w` bits. -/
def parseU (w : Nat) (s : List Char) : Option Nat :=
  if s ≠ [] ∧ (∀ c ∈ s, c.isDigit = true) ∧ digitsVal s < 2 ^ w then some (digitsVal s)
  else none

/-- Rust `str::parse::<f32>` restricted to the digit-and-dot strings
`parse_line` builds: succeeds iff there is at least one digit and at most
one dot.  The resulting float is represented by its source text (no
property here inspects the numeric value). -/
def parseF32 (s : List Char) : Option String :=
  if s.any Char.isDigit = true ∧ (s.filter (fun c => c = '.')).length ≤ 1 ∧
      (∀ c ∈ s, c.isDigit = true ∨ c = '.') then
    some (String.mk s)
  else none

/-- The character loop of `parse_line` (`src/server.rs:126-156`), with the
running `Update`, the digit buffer, the field counter, and
`most_current_bool` made explicit. -/
def plGo : List Char → Update → List Char → Nat → Bool → PRes
  | [], u, _, _, _ => PRes.ok u
  | c :: rest, u, buf, count, mcb =>
    if c = '.' ∧ count = 0 then plGo rest u buf count mcb
    else if c = '.' then plGo rest u (buf ++ [c]) count mcb
    else if c.isDigit then plGo rest u (buf ++ [c]) count mcb
    else if c = 't' ∨ c = 'f' then plGo rest u buf count (c = 't')
    else if c = ',' ∨ c = ';' then
      match count with
      | 0 =>
        match parseU 64 buf with
        | some n => plGo rest { u with ts := n } [] 1 mcb
        | none => PRes.bad
      | 1 =>
        match parseU 32 buf with
        | some n => plGo rest { u with seq := n } [] 2 mcb
        | none => PRes.bad
      | 2 => plGo rest { u with is_trade := mcb } [] 3 mcb
      | 3 => plGo rest { u with is_bid := mcb } [] 4 mcb
      | 4 =>
        match parseF32 buf with
        | some p => plGo rest { u with price := p } [] 5 mcb
        | none => PRes.bad
      | 5 =>
        match parseF32 buf with
        | some z => plGo rest { u with sz := z } [] 6 mcb
        | none => PRes.bad
      | _ => PRes.crash
    else plGo rest u buf count mcb

/-- `parse_line` (`src/server.rs:126-156`). -/
def parse_line (s : String) : PRes :=
  plGo s.toList initU [] 0 false

/-- The source's own test `should_parse_string_okay` holds in the
embedding (the floats appearing as their tokens). -/
lemma srcTestOkay :
    parse_line "1505177459.658, 139010, f, t, 0.0703629, 7.65064249;"
      = PRes.ok { ts := 1505177459658, seq := 139010, is_trade := false, is_bid := true,
                  price := "0.0703629", sz := "7.65064249" } := by decide

/-- The source's own test `should_parse_string_not_okay` holds in the
embedding: the shifted empty fields make the price field parse fail. -/
lemma srcTestNotOkay :
    parse_line "1505177459.658, 139010,,, f, t, 0.0703629, 7.65064249;" = PRes.bad := by decide

/-- Pad a residue below 1000 to three digits. -/
def pad3 (n : Nat) : String :=
  if n < 10 then "00" ++ toString n
  else if n < 100 then "0" ++ toString n
  else toString n

/-- Modelled from the spec: `dtf::Update::to_json` is not under `src/`
(only its caller `Store::to_string` is).  §4.1: one JSON object with
fields `ts`, `seq`, `is_trade`, `is_bid`, `price`, `size`, where `ts` is
the integer milliseconds divided by 1000 with three fractional digits and
the booleans render as `true`/`false`.  The float fields splice in the
token they were parsed from. -/
def to_json (u : Update) : String :=
  "\x7b\"ts\":" ++ toString (u.ts / 1000) ++ "." ++ pad3 (u.ts % 1000) ++
    ",\"seq\":" ++ toString u.seq ++
    ",\"is_trade\":" ++ (if u.is_trade then "true" else "false") ++
    ",\"is_bid\":" ++ (if u.is_bid then "true" else "false") ++
    ",\"price\":" ++ u.price ++ ",\"size\":" ++ u.sz ++ "\x7d"

/-- Contents of one `.dtf` file.  Modelled from the spec (§4.2): the
header's record count always equals the body length (`header count
honesty`), so a file is represented by its symbol name and record body. -/
structure DtfFile where
  symbol : String
  recs : List Update
deriving DecidableEq, Repr

/-- The data folder's file system: an association list from path to file,
most recent write first. -/
abbrev FS := List (String × DtfFile)

/-- First file stored under the given path, if any. -/
def fsGet : FS → String → Option DtfFile
  | [], _ => none
  | (p, f) :: r, q => if p = q then some f else fsGet r q

/-- Overwrite (or create) the file at a path. -/
def fsPut (fs : FS) (p : String) (f : DtfFile) : FS :=
  (p, f) :: fs

/-- Modelled from the spec: `dtf::get_size` is not under `src/`.  §4.2:
read only the header and return the stored record count.  The spec
defines it only for an existing file; a missing path yields `none`
(the operation fails). -/
def get_size (fs : FS) (p : String) : Option Nat :=
  (fsGet fs p).map (fun f => f.recs.length)

/-- Modelled from the spec: `dtf::decode` is not under `src/`.  §4.2:
read the full record body of an existing file. -/
def decode (fs : FS) (p : String) : Option (List Update) :=
  (fsGet fs p).map (fun f => f.recs)

/-- Modelled from the spec: `dtf::encode` is not under `src/`.  §4.2:
write a fresh file (overwriting if present). -/
def encode (fs : FS) (p : String) (symbol : String) (v : List Update) : FS :=
  fsPut fs p ⟨symbol, v⟩

/-- Maximum `ts` in a record body — the header's max-ts field (§4.2). -/
def maxTs (l : List Update) : Nat :=
  l.foldl (fun a u => max a u.ts) 0

/-- Modelled from the spec: `dtf::append` is not under `src/`.  §4.2:
append to an existing file exactly those updates whose `ts` is strictly
greater than the file's current max `ts`; a missing file is left
untouched (`Store::flush` only calls `append` when the file exists). -/
def dtfAppend (fs : FS) (p : String) (v : List Update) : FS :=
  match fsGet fs p with
  | some f => fsPut fs p ⟨f.symbol, f.recs ++ v.filter (fun u => maxTs f.recs < u.ts)⟩
  | none => fs

/-- The per-dataset engine (`src/server.rs:44-50`).  `size` is a `u64`
record count (its increments along any reachable run are far below
`2 ^ 64`, so it is carried as a `Nat`); `v` is the in-memory buffer. -/
structure Store where
  name : String
  folder : String
  in_memory : Bool
  size : Nat
  v : List Update
deriving DecidableEq, Repr

/-- `Store::add` (`src/server.rs:54-57`): push onto the buffer and
increment `size`. -/
def Store.add (s : Store) (u : Update) : Store :=
  { s with v := s.v ++ [u], size := s.size + 1 }

/-- `n as usize` on an `i32` value: sign-extend and reinterpret,
i.e. reduce modulo `2 ^ 64`. -/
def iAsUsize (n : Int) : Nat :=
  (n % (2 ^ 64 : Int)).toNat

/-- `Store::to_string` (`src/server.rs:63-70`): JSON array of the first
`count` buffer entries (`count as usize`), or of all of them when
`count == -1`. -/
def Store.to_string (s : Store) (count : Int) : String :=
  let objects : List String :=
    if count = -1 then s.v.map to_json
    else (s.v.take (iAsUsize count)).map to_json
  "[" ++ String.intercalate "," objects ++ "]\n"

/-- The `.dtf` path `flush` and `load` use (`format!("{}/{}.dtf", folder, name)`). -/
def Store.fname (s : Store) : String :=
  s.folder ++ "/" ++ s.name ++ ".dtf"

/-- `Store::flush` (`src/server.rs:77-85`): append when the file exists,
otherwise encode a fresh file (symbol field set to the store name). -/
def Store.flush (s : Store) (fs : FS) : FS :=
  if (fsGet fs s.fname).isSome then dtfAppend fs s.fname s.v
  else encode fs s.fname s.name s.v

/-- `Store::load` (`src/server.rs:88-95`): if the file exists, replace
the buffer with its decoded body, set `size` to the buffer length and
`in_memory` to true; otherwise do nothing. -/
def Store.load (s : Store) (fs : FS) : Store :=
  match decode fs s.fname with
  | some recs => { s with v := recs, size := recs.length, in_memory := true }
  | none => s

/-- `Store::load_size_from_file` (`src/server.rs:98-101`): read the
header count of `format!("{}/{}", folder, name)` — note: no `.dtf`
extension.  `none` models the failure of `dtf::get_size` on the missing
path. -/
def Store.load_size_from_file (s : Store) (fs : FS) : Option Store :=
  (get_size fs (s.folder ++ "/" ++ s.name)).map (fun n => { s with size := n })

/-- `Store::clear` (`src/server.rs:104-108`): empty the buffer, drop
`in_memory`, then refresh `size` from the file. -/
def Store.clear (s : Store) (fs : FS) : Option Store :=
  Store.load_size_from_file { s with v := [], in_memory := false } fs

/-- The store map: `HashMap<String, Store>` modelled as an association
list (first occurrence of a key wins; `insert` replaces in place).  The
claims under proof never depend on iteration order. -/
abbrev StoreMap := List (String × Store)

/-- `HashMap::get` / `get_mut`: the value at a key, if present. -/
def hmGet : StoreMap → String → Option Store
  | [], _ => none
  | (k0, s0) :: r, k => if k0 = k then some s0 else hmGet r k

/-- `HashMap::insert`: replace the entry at the key or add a new one. -/
def hmInsert : StoreMap → String → Store → StoreMap
  | [], k, s => [(k, s)]
  | (k0, s0) :: r, k, s => if k0 = k then (k0, s) :: r else (k0, s0) :: hmInsert r k s

/-- `HashMap::contains_key`. -/
def hmContains (m : StoreMap) (k : String) : Bool :=
  (hmGet m k).isSome

/-- In-place mutation through `get_mut`: apply `f` to the value at the
key, leaving everything else unchanged. -/
def hmModify : StoreMap → String → (Store → Store) → StoreMap
  | [], _, _ => []
  | (k0, s0) :: r, k, f => if k0 = k then (k0, f s0) :: r else (k0, s0) :: hmModify r k f

/-- Per-connection session state (`src/server.rs:113-118`). -/
structure State where
  is_adding : Bool
  store : StoreMap
  current_store_name : String
  dtf_folder : String
deriving DecidableEq, Repr

/-- Outcome of one `gen_response` call.  Rust returns `Option<String>`
(`none` makes `handle_client` write `"ERR."`); the two panic classes are
kept apart: `lookupCrash` is the `.unwrap()` / `.expect("KEY IS NOT IN
HASHMAP")` on a current-store lookup, `otherCrash` any other panic (the
`GET` count `.unwrap()`, a failing `dtf::get_size` inside `clear`, the
`IMPOSSIBLE` arm of `parse_line`). -/
inductive Outcome where
  | ok (resp : Option String) (st : State) (fs : FS)
  | lookupCrash
  | otherCrash
deriving DecidableEq, Repr

/-- `HELP_STR` (`src/server.rs:6-10`). -/
def HELP_STR : String :=
  "PING, INFO, USE [db], CREATE [db],\nADD [ts],[seq],[is_trade],[is_bid],[price],[size];\nBULKADD ...; DDAKLUB\nFLUSH, FLUSHALL, GETALL, GET [count], CLEAR\n"

/-- The `INFO` response body (`src/server.rs:163-169`). -/
def infoJson (m : StoreMap) : String :=
  "[" ++ String.intercalate ", "
    (m.map (fun p =>
      "\x7b\"name\": \"" ++ p.2.name ++ "\", \"in_memory\": " ++
        (if p.2.in_memory then "true" else "false") ++
        ", \"count\": " ++ toString p.2.size ++ "\x7d")) ++ "]\n"

/-- `CLEARALL` (`src/server.rs:186-191`): clear every store; a failing
`clear` panics the session (`none`). -/
def clearAllStores : StoreMap → FS → Option StoreMap
  | [], _ => some []
  | (k, s) :: r, fs =>
    match Store.clear s fs, clearAllStores r fs with
    | some s2, some r2 => some ((k, s2) :: r2)
    | _, _ => none

/-- `FLUSHALL` (`src/server.rs:197-202`): flush every store in turn. -/
def flushAllStores : StoreMap → FS → FS
  | [], fs => fs
  | (_, s) :: r, fs => flushAllStores r (Store.flush s fs)

/-- Rust `str::parse::<i32>`: optional sign, then decimal digits, value
within the `i32` range. -/
def parseI32 (l : List Char) : Option Int :=
  match l with
  | '-' :: ds =>
    if ds ≠ [] ∧ (∀ c ∈ ds, c.isDigit = true) ∧ digitsVal ds ≤ 2 ^ 31 then
      some (-(digitsVal ds : Int))
    else none
  | '+' :: ds =>
    if ds ≠ [] ∧ (∀ c ∈ ds, c.isDigit = true) ∧ digitsVal ds < 2 ^ 31 then
      some (digitsVal ds : Int)
    else none
  | ds =>
    if ds ≠ [] ∧ (∀ c ∈ ds, c.isDigit = true) ∧ digitsVal ds < 2 ^ 31 then
      some (digitsVal ds : Int)
    else none

/-- A `Store` as `CREATE` and session init build it: empty buffer, not in
memory, zero size. -/
def initStore (folder name : String) : Store :=
  { name := name, folder := folder, in_memory := false, size := 0, v := [] }

/-- `str::starts_with` at character level (all command prefixes are
ASCII, where byte and character positions coincide). -/
def strStarts (s p : String) : Bool :=
  List.isPrefixOf p.toList s.toList

/-- The slice `&string[n..]` at character level (ASCII prefixes). -/
def strDrop (s : String) (n : Nat) : String :=
  String.mk (s.toList.drop n)

/-- The `_` arm of the `gen_response` match (`src/server.rs:203-265`):
bulk-mode ingest, then the prefix commands `ADD `, `CREATE `, `USE `,
`GET `, then the unknown-command error. -/
def gen_fall (cmd : String) (state : State) (fs : FS) : Outcome :=
  if state.is_adding then
    match parse_line cmd with
    | PRes.ok up =>
      match hmGet state.store state.current_store_name with
      | some _ =>
        Outcome.ok (some "")
          { state with store := hmModify state.store state.current_store_name (fun s => s.add up) } fs
      | none => Outcome.lookupCrash
    | PRes.bad => Outcome.ok none state fs
    | PRes.crash => Outcome.otherCrash
  else if strStarts cmd "ADD " then
    match parse_line (strDrop cmd 3) with
    | PRes.ok up =>
      match hmGet state.store state.current_store_name with
      | some _ =>
        Outcome.ok (some "1\n")
          { state with
            store := hmModify state.store state.current_store_name
              (fun s => { s with v := s.v ++ [up] }) } fs
      | none => Outcome.lookupCrash
    | PRes.bad => Outcome.ok none state fs
    | PRes.crash => Outcome.otherCrash
  else if strStarts cmd "CREATE " then
    Outcome.ok (some ("Created DB `" ++ strDrop cmd 7 ++ "`.\n"))
      { state with store := hmInsert state.store (strDrop cmd 7) (initStore state.dtf_folder (strDrop cmd 7)) }
      fs
  else if strStarts cmd "USE " then
    if hmContains state.store (strDrop cmd 4) then
      match hmGet state.store (strDrop cmd 4) with
      | some _ =>
        Outcome.ok (some ("SWITCHED TO DB `" ++ strDrop cmd 4 ++ "`.\n"))
          { state with
            current_store_name := strDrop cmd 4,
            store := hmModify state.store (strDrop cmd 4) (fun s => s.load fs) } fs
      | none => Outcome.lookupCrash
    else Outcome.ok (some ("ERR unknown DB `" ++ strDrop cmd 4 ++ "`.\n")) state fs
  else if strStarts cmd "GET " then
    match parseI32 (strDrop cmd 4).toList with
    | some count =>
      match hmGet state.store state.current_store_name with
      | some cur => Outcome.ok (some (cur.to_string count)) state fs
      | none => Outcome.lookupCrash
    | none => Outcome.otherCrash
  else Outcome.ok (some ("ERR unknown command '" ++ cmd ++ "'.\n")) state fs

/-- `gen_response` (`src/server.rs:158-267`), one command line against
the session state and the data-folder file system.  The literal match
arms come first, exactly as in the source `match`; everything else goes
to the `_` arm `gen_fall`. -/
def gen_response (cmd : String) (state : State) (fs : FS) : Outcome :=
  if cmd = "" then Outcome.ok (some "") state fs
  else if cmd = "PING" then Outcome.ok (some "PONG.\n") state fs
  else if cmd = "HELP" then Outcome.ok (some HELP_STR) state fs
  else if cmd = "INFO" then Outcome.ok (some (infoJson state.store)) state fs
  else if cmd = "BULKADD" then Outcome.ok (some "") { state with is_adding := true } fs
  else if cmd = "DDAKLUB" then Outcome.ok (some "1\n") { state with is_adding := false } fs
  else if cmd = "GETALL" then
    match hmGet state.store state.current_store_name with
    | some cur => Outcome.ok (some (cur.to_string (-1))) state fs
    | none => Outcome.lookupCrash
  else if cmd = "CLEAR" then
    match hmGet state.store state.current_store_name with
    | some cur =>
      match cur.clear fs with
      | some cur2 =>
        Outcome.ok (some "1\n")
          { state with store := hmModify state.store state.current_store_name (fun _ => cur2) } fs
      | none => Outcome.otherCrash
    | none => Outcome.lookupCrash
  else if cmd = "CLEARALL" then
    match clearAllStores state.store fs with
    | some m2 => Outcome.ok (some "1\n") { state with store := m2 } fs
    | none => Outcome.otherCrash
  else if cmd = "FLUSH" then
    match hmGet state.store state.current_store_name with
    | some cur => Outcome.ok (some "1\n") state (cur.flush fs)
    | none => Outcome.lookupCrash
  else if cmd = "FLUSHALL" then Outcome.ok (some "1\n") state (flushAllStores state.store fs)
  else gen_fall cmd state fs

/-- `init_dbs` (`src/server.rs:285-302`), with the directory listing (an
out-of-scope collaborator per spec §1) abstracted to the list of
discovered `(file stem, header record count)` pairs: each becomes a
metadata-only store. -/
def init_dbs (folder : String) (scanned : List (String × Nat)) (m : StoreMap) : StoreMap :=
  scanned.foldl (fun acc p => hmInsert acc p.1 { initStore folder p.1 with size := p.2 }) m

/-- Session state at client connect (`src/server.rs:309-323`): the
`default` store plus one store per scanned `.dtf` file. -/
def initState (folder : String) (scanned : List (String × Nat)) : State :=
  { current_store_name := "default", is_adding := false,
    store := init_dbs folder scanned (hmInsert [] "default" (initStore folder "default")),
    dtf_folder := folder }

/-- Result of running a whole command sequence (the `handle_client`
loop, one `gen_response` per received line). -/
inductive RunRes where
  | ok (st : State) (fs : FS)
  | lookupCrash
  | otherCrash
deriving DecidableEq, Repr

/-- Run a list of command lines from a state (the `handle_client` read
loop); a panic stops the session. -/
def run : State → FS → List String → RunRes
  | st, fs, [] => RunRes.ok st fs
  | st, fs, c :: cs =>
    match gen_response c st fs with
    | Outcome.ok _ st2 fs2 => run st2 fs2 cs
    | Outcome.lookupCrash => RunRes.lookupCrash
    | Outcome.otherCrash => RunRes.otherCrash

/-- `true` exactly on the current-store-lookup panic. -/
def lookupCrashed : RunRes → Bool
  | RunRes.lookupCrash => true
  | _ => false

/-! ### Character-step lemmas for the `parse_line` loop -/

lemma digit_ne_dot {c : Char} (h : c.isDigit = true) : ¬ c = '.' := by
  intro he; subst he; exact absurd h (by decide)

lemma digit_ne_t {c : Char} (h : c.isDigit = true) : ¬ c = 't' := by
  intro he; subst he; exact absurd h (by decide)

lemma digit_ne_f {c : Char} (h : c.isDigit = true) : ¬ c = 'f' := by
  intro he; subst he; exact absurd h (by decide)

lemma digit_ne_comma {c : Char} (h : c.isDigit = true) : ¬ c = ',' := by
  intro he; subst he; exact absurd h (by decide)

lemma digit_ne_semi {c : Char} (h : c.isDigit = true) : ¬ c = ';' := by
  intro he; subst he; exact absurd h (by decide)

lemma plGo_digit {c : Char} (h : c.isDigit = true) (rest : List Char) (u : Update)
    (buf : List Char) (count : Nat) (mcb : Bool) :
    plGo (c :: rest) u buf count mcb = plGo rest u (buf ++ [c]) count mcb := by
  have h1 : ¬(c = '.' ∧ count = 0) := fun hc => digit_ne_dot h hc.1
  simp only [plGo, if_neg h1, if_neg (digit_ne_dot h), h]
  simp

lemma plGo_dot_zero (rest : List Char) (u : Update) (buf : List Char) (mcb : Bool) :
    plGo ('.' :: rest) u buf 0 mcb = plGo rest u buf 0 mcb := rfl

lemma plGo_dot_pos {count : Nat} (h : ¬ count = 0) (rest : List Char) (u : Update)
    (buf : List Char) (mcb : Bool) :
    plGo ('.' :: rest) u buf count mcb = plGo rest u (buf ++ ['.']) count mcb := by
  cases count with
  | zero => exact absurd rfl h
  | succ n => rfl

lemma plGo_t (rest : List Char) (u : Update) (buf : List Char) (count : Nat) (mcb : Bool) :
    plGo ('t' :: rest) u buf count mcb = plGo rest u buf count true := rfl

lemma plGo_f (rest : List Char) (u : Update) (buf : List Char) (count : Nat) (mcb : Bool) :
    plGo ('f' :: rest) u buf count mcb = plGo rest u buf count false := rfl

lemma plGo_other {c : Char} (h1 : ¬ c = '.') (h2 : c.isDigit = false) (h3 : ¬ c = 't')
    (h4 : ¬ c = 'f') (h5 : ¬ c = ',') (h6 : ¬ c = ';') (rest : List Char) (u : Update)
    (buf : List Char) (count : Nat) (mcb : Bool) :
    plGo (c :: rest) u buf count mcb = plGo rest u buf count mcb := by
  have ha : ¬(c = '.' ∧ count = 0) := fun hc => h1 hc.1
  have hb : ¬(c = 't' ∨ c = 'f') := fun hc => hc.elim h3 h4
  have hcm : ¬(c = ',' ∨ c = ';') := fun hc => hc.elim h5 h6
  simp only [plGo, if_neg ha, if_neg h1, h2, if_neg hb, if_neg hcm, Bool.false_eq_true,
    if_false]

lemma plGo_term_zero {c : Char} (h : c = ',' ∨ c = ';') (rest : List Char) (u : Update)
    (buf : List Char) (mcb : Bool) :
    plGo (c :: rest) u buf 0 mcb =
      match parseU 64 buf with
      | some n => plGo rest { u with ts := n } [] 1 mcb
      | none => PRes.bad := by
  rcases h with h | h <;> subst h <;> rfl

lemma plGo_term_two {c : Char} (h : c = ',' ∨ c = ';') (rest : List Char) (u : Update)
    (buf : List Char) (mcb : Bool) :
    plGo (c :: rest) u buf 2 mcb = plGo rest { u with is_trade := mcb } [] 3 mcb := by
  rcases h with h | h <;> subst h <;> rfl

lemma plGo_term_three {c : Char} (h : c = ',' ∨ c = ';') (rest : List Char) (u : Update)
    (buf : List Char) (mcb : Bool) :
    plGo (c :: rest) u buf 3 mcb = plGo rest { u with is_bid := mcb } [] 4 mcb := by
  rcases h with h | h <;> subst h <;> rfl

lemma plGo_term_one {c : Char} (h : c = ',' ∨ c = ';') (rest : List Char) (u : Update)
    (buf : List Char) (mcb : Bool) :
    plGo (c :: rest) u buf 1 mcb =
      match parseU 32 buf with
      | some n => plGo rest { u with seq := n } [] 2 mcb
      | none => PRes.bad := by
  rcases h with h | h <;> subst h <;> rfl

lemma plGo_term_four {c : Char} (h : c = ',' ∨ c = ';') (rest : List Char) (u : Update)
    (buf : List Char) (mcb : Bool) :
    plGo (c :: rest) u buf 4 mcb =
      match parseF32 buf with
      | some p => plGo rest { u with price := p } [] 5 mcb
      | none => PRes.bad := by
  rcases h with h | h <;> subst h <;> rfl

lemma plGo_term_five {c : Char} (h : c = ',' ∨ c = ';') (rest : List Char) (u : Update)
    (buf : List Char) (mcb : Bool) :
    plGo (c :: rest) u buf 5 mcb =
      match parseF32 buf with
      | some z => plGo rest { u with sz := z } [] 6 mcb
      | none => PRes.bad := by
  rcases h with h | h <;> subst h <;> rfl

lemma plGo_term_many {c : Char} (h : c = ',' ∨ c = ';') {count : Nat} (h6 : 6 ≤ count)
    (rest : List Char) (u : Update) (buf : List Char) (mcb : Bool) :
    plGo (c :: rest) u buf count mcb = PRes.crash := by
  obtain ⟨k, rfl⟩ : ∃ k, count = k + 6 := ⟨count - 6, by omega⟩
  rcases h with h | h <;> subst h <;> rfl

/-! ### Scan lemmas -/

/-- The value `most_current_bool` holds after scanning `l` starting from
`b`: the last `t`/`f` wins, every other character leaves it alone. -/
def lastTF (l : List Char) (b : Bool) : Bool :=
  l.foldl (fun acc ch => if ch = 't' then true else if ch = 'f' then false else acc) b

lemma lastTF_cons (c : Char) (l : List Char) (b : Bool) :
    lastTF (c :: l) b = lastTF l (if c = 't' then true else if c = 'f' then false else b) := rfl

/-- Scanning a terminator-free stretch inside a field (`count ≠ 0`)
only feeds the buffer and updates `most_current_bool` to the last
`t`/`f` seen. -/
lemma scanField : ∀ (l rest : List Char) (u : Update) (buf : List Char) (count : Nat)
    (mcb : Bool), ¬ count = 0 → (∀ ch ∈ l, ¬ ch = ',' ∧ ¬ ch = ';') →
    ∃ buf2, plGo (l ++ rest) u buf count mcb = plGo rest u buf2 count (lastTF l mcb) := by
  intro l
  induction l with
  | nil => intro rest u buf count mcb _ _; exact ⟨buf, rfl⟩
  | cons c l ih =>
    intro rest u buf count mcb hcount h
    have hc := h c (List.mem_cons_self c l)
    have hl : ∀ ch ∈ l, ¬ ch = ',' ∧ ¬ ch = ';' :=
      fun ch hm => h ch (List.mem_cons_of_mem c hm)
    rw [List.cons_append]
    by_cases hdot : c = '.'
    · subst hdot
      rw [plGo_dot_pos hcount, lastTF_cons]
      simpa using ih rest u (buf ++ ['.']) count mcb hcount hl
    · by_cases hdig : c.isDigit
      · rw [plGo_digit hdig, lastTF_cons, if_neg (digit_ne_t hdig), if_neg (digit_ne_f hdig)]
        exact ih rest u (buf ++ [c]) count mcb hcount hl
      · by_cases ht : c = 't'
        · subst ht
          rw [plGo_t, lastTF_cons, if_pos rfl]
          exact ih rest u buf count true hcount hl
        · by_cases hf : c = 'f'
          · subst hf
            rw [plGo_f, lastTF_cons, if_neg (by decide), if_pos rfl]
            exact ih rest u buf count false hcount hl
          · rw [plGo_other hdot (by simpa using hdig) ht hf hc.1 hc.2, lastTF_cons,
              if_neg ht, if_neg hf]
            exact ih rest u buf count mcb hcount hl

/-- Without a field terminator, the loop never touches the `Update`
accumulator: it ends in `Some` of whatever it carried. -/
lemma scanNoTerm : ∀ (l : List Char) (u : Update) (buf : List Char) (count : Nat) (mcb : Bool),
    (∀ ch ∈ l, ¬ ch = ',' ∧ ¬ ch = ';') → plGo l u buf count mcb = PRes.ok u := by
  intro l
  induction l with
  | nil => intro u buf count mcb _; rfl
  | cons c rest ih =>
    intro u buf count mcb h
    have hc := h c (List.mem_cons_self c rest)
    have hrest : ∀ ch ∈ rest, ¬ ch = ',' ∧ ¬ ch = ';' :=
      fun ch hm => h ch (List.mem_cons_of_mem c hm)
    by_cases hdot : c = '.'
    · subst hdot
      by_cases h0 : count = 0
      · subst h0; rw [plGo_dot_zero]; exact ih u buf 0 mcb hrest
      · rw [plGo_dot_pos h0]; exact ih u (buf ++ ['.']) count mcb hrest
    · by_cases hdig : c.isDigit
      · rw [plGo_digit hdig]; exact ih u (buf ++ [c]) count mcb hrest
      · by_cases ht : c = 't'
        · subst ht; rw [plGo_t]; exact ih u buf count true hrest
        · by_cases hf : c = 'f'
          · subst hf; rw [plGo_f]; exact ih u buf count false hrest
          · rw [plGo_other hdot (by simpa using hdig) ht hf hc.1 hc.2]
            exact ih u buf count mcb hrest

/-- Scanning the `ts` field (`count = 0`): every `.` is removed, every
digit is appended to the buffer. -/
lemma scanTs : ∀ (l rest : List Char) (u : Update) (buf : List Char) (mcb : Bool),
    (∀ ch ∈ l, ch.isDigit = true ∨ ch = '.') →
    plGo (l ++ rest) u buf 0 mcb = plGo rest u (buf ++ l.filter Char.isDigit) 0 mcb := by
  intro l
  induction l with
  | nil => intro rest u buf mcb _; simp
  | cons c l ih =>
    intro rest u buf mcb h
    have hc := h c (List.mem_cons_self c l)
    have hl : ∀ ch ∈ l, ch.isDigit = true ∨ ch = '.' :=
      fun ch hm => h ch (List.mem_cons_of_mem c hm)
    rcases hc with hdig | hdot
    · rw [List.cons_append, plGo_digit hdig, ih rest u (buf ++ [c]) mcb hl]
      simp [List.filter_cons, hdig]
    · subst hdot
      rw [List.cons_append, plGo_dot_zero, ih rest u buf mcb hl]
      simp [List.filter_cons]

/-- `parseU` succeeds on a nonempty all-digit buffer whose value fits. -/
lemma parseU_digits {w : Nat} {buf : List Char} (h1 : buf ≠ [])
    (h2 : ∀ c ∈ buf, c.isDigit = true) (h3 : digitsVal buf < 2 ^ w) :
    parseU w buf = some (digitsVal buf) := by
  unfold parseU
  rw [if_pos ⟨h1, h2, h3⟩]

/-- Once the field counter has left the `ts` field, nothing the loop does
can change `ts` any more. -/
lemma ts_stable : ∀ (l : List Char) (u : Update) (buf : List Char) (count : Nat) (mcb : Bool)
    (u' : Update), 1 ≤ count → plGo l u buf count mcb = PRes.ok u' → u'.ts = u.ts := by
  intro l
  induction l with
  | nil =>
    intro u buf count mcb u' _ h
    simp only [plGo, PRes.ok.injEq] at h
    rw [← h]
  | cons c rest ih =>
    intro u buf count mcb u' hcount h
    by_cases hdot : c = '.'
    · subst hdot
      rw [plGo_dot_pos (by omega)] at h
      exact ih _ _ _ _ _ hcount h
    · by_cases hdig : c.isDigit
      · rw [plGo_digit hdig] at h
        exact ih _ _ _ _ _ hcount h
      · by_cases ht : c = 't'
        · subst ht; rw [plGo_t] at h; exact ih _ _ _ _ _ hcount h
        · by_cases hf : c = 'f'
          · subst hf; rw [plGo_f] at h; exact ih _ _ _ _ _ hcount h
          · by_cases hterm : c = ',' ∨ c = ';'
            · rcases (by omega :
                  count = 1 ∨ count = 2 ∨ count = 3 ∨ count = 4 ∨ count = 5 ∨ 6 ≤ count) with
                rfl | rfl | rfl | rfl | rfl | h6
              · rw [plGo_term_one hterm] at h
                cases hp : parseU 32 buf with
                | some n =>
                  rw [hp] at h
                  exact ih { u with seq := n } [] 2 mcb u' (by omega) h
                | none => rw [hp] at h; cases h
              · rw [plGo_term_two hterm] at h
                exact ih { u with is_trade := mcb } [] 3 mcb u' (by omega) h
              · rw [plGo_term_three hterm] at h
                exact ih { u with is_bid := mcb } [] 4 mcb u' (by omega) h
              · rw [plGo_term_four hterm] at h
                cases hp : parseF32 buf with
                | some p =>
                  rw [hp] at h
                  exact ih { u with price := p } [] 5 mcb u' (by omega) h
                | none => rw [hp] at h; cases h
              · rw [plGo_term_five hterm] at h
                cases hp : parseF32 buf with
                | some z =>
                  rw [hp] at h
                  exact ih { u with sz := z } [] 6 mcb u' (by omega) h
                | none => rw [hp] at h; cases h
              · rw [plGo_term_many hterm h6] at h
                cases h
            · push_neg at hterm
              rw [plGo_other hdot (by simpa using hdig) ht hf hterm.1 hterm.2] at h
              exact ih _ _ _ _ _ hcount h

/-! ### Store-map lemmas -/

lemma hmGet_insert : ∀ (m : StoreMap) (k k' : String) (s : Store),
    hmGet (hmInsert m k s) k' = if k = k' then some s else hmGet m k'
  | [], k, k', s => by
    simp only [hmInsert, hmGet]
  | (k0, s0) :: r, k, k', s => by
    by_cases h0 : k0 = k
    · subst h0
      by_cases h1 : k0 = k' <;> simp [hmInsert, hmGet, h1]
    · have h0' : ¬ k = k0 := fun he => h0 he.symm
      by_cases h1 : k0 = k'
      · subst h1
        have h2 : ¬ k = k0 := h0'
        simp [hmInsert, hmGet, h0, h2]
      · simp [hmInsert, hmGet, h0, h1, hmGet_insert r k k' s]

lemma hmGet_modify : ∀ (m : StoreMap) (k k' : String) (f : Store → Store),
    hmGet (hmModify m k f) k' = if k = k' then (hmGet m k').map f else hmGet m k'
  | [], k, k', f => by
    simp only [hmModify, hmGet, Option.map_none']
    split <;> rfl
  | (k0, s0) :: r, k, k', f => by
    by_cases h0 : k0 = k
    · subst h0
      by_cases h1 : k0 = k' <;> simp [hmModify, hmGet, h1]
    · have h0' : ¬ k = k0 := fun he => h0 he.symm
      by_cases h1 : k0 = k'
      · subst h1
        simp [hmModify, hmGet, h0, h0']
      · simp [hmModify, hmGet, h0, h1, hmGet_modify r k k' f]

lemma hmContains_modify (m : StoreMap) (k k' : String) (f : Store → Store) :
    hmContains (hmModify m k f) k' = hmContains m k' := by
  unfold hmContains
  rw [hmGet_modify]
  split
  · rw [Option.isSome_map']
  · rfl

lemma hmContains_insert_of {m : StoreMap} {k' : String} (k : String) (s : Store)
    (h : hmContains m k' = true) : hmContains (hmInsert m k s) k' = true := by
  unfold hmContains at h ⊢
  rw [hmGet_insert]
  split
  · rfl
  · exact h

lemma clearAllStores_isSome : ∀ (m : StoreMap) {fs : FS} {m2 : StoreMap},
    clearAllStores m fs = some m2 → ∀ k, (hmGet m2 k).isSome = (hmGet m k).isSome
  | [], fs, m2, h, k => by
    simp only [clearAllStores, Option.some.injEq] at h
    rw [← h]
  | (k0, s0) :: r, fs, m2, h, k => by
    simp only [clearAllStores] at h
    cases hs : Store.clear s0 fs with
    | none => rw [hs] at h; cases h
    | some s2 =>
      cases hr : clearAllStores r fs with
      | none => rw [hs, hr] at h; cases h
      | some r2 =>
        rw [hs, hr] at h
        cases h
        simp only [hmGet]
        by_cases h0 : k0 = k
        · rw [if_pos h0, if_pos h0]; rfl
        · rw [if_neg h0, if_neg h0, clearAllStores_isSome r hr k]

/-! ### The current-key invariant (claim C10) and the
empty-buffer invariant (claim C2) -/

/-- The current store name is a key of the store map, so the
`.unwrap()` / `.expect("KEY IS NOT IN HASHMAP")` lookups succeed. -/
def keyInv (st : State) : Prop :=
  hmContains st.store st.current_store_name = true

/-- Spec §3 invariant on one map: a store not `in_memory` has an empty
buffer. -/
def bufInv (m : StoreMap) : Prop :=
  ∀ p ∈ m, p.2.in_memory = false → p.2.v = []

lemma clear_fields {s : Store} {fs : FS} {s2 : Store} (h : Store.clear s fs = some s2) :
    s2.in_memory = false ∧ s2.v = [] := by
  unfold Store.clear Store.load_size_from_file at h
  cases hg : get_size fs (s.folder ++ "/" ++ s.name) with
  | none => rw [hg] at h; cases h
  | some n =>
    rw [hg] at h
    cases h
    exact ⟨rfl, rfl⟩

lemma load_pres {s : Store} {fs : FS} (h : s.in_memory = false → s.v = []) :
    (s.load fs).in_memory = false → (s.load fs).v = [] := by
  unfold Store.load
  cases hd : decode fs s.fname with
  | none => exact h
  | some recs => intro hf; cases hf

lemma bufInv_insert : ∀ (m : StoreMap), bufInv m → ∀ (k : String) (s : Store),
    (s.in_memory = false → s.v = []) → bufInv (hmInsert m k s)
  | [], _, k, s, hs => by
    intro p hp
    simp only [hmInsert, List.mem_singleton] at hp
    subst hp
    exact hs
  | (k0, s0) :: r, hb, k, s, hs => by
    intro p hp
    simp only [hmInsert] at hp
    split at hp
    · rcases List.mem_cons.mp hp with rfl | hp
      · exact hs
      · exact hb p (List.mem_cons_of_mem (k0, s0) hp)
    · rcases List.mem_cons.mp hp with rfl | hp
      · exact hb (k0, s0) (List.mem_cons_self (k0, s0) r)
      · exact bufInv_insert r (fun p2 hp2 => hb p2 (List.mem_cons_of_mem (k0, s0) hp2))
          k s hs p hp

lemma bufInv_modify : ∀ (m : StoreMap), bufInv m → ∀ (k : String) (f : Store → Store),
    (∀ s, (s.in_memory = false → s.v = []) → ((f s).in_memory = false → (f s).v = [])) →
    bufInv (hmModify m k f)
  | [], _, k, f, _ => by
    intro p hp
    cases hp
  | (k0, s0) :: r, hb, k, f, hf => by
    intro p hp
    simp only [hmModify] at hp
    split at hp
    · rcases List.mem_cons.mp hp with rfl | hp
      · exact hf s0 (hb (k0, s0) (List.mem_cons_self (k0, s0) r))
      · exact hb p (List.mem_cons_of_mem (k0, s0) hp)
    · rcases List.mem_cons.mp hp with rfl | hp
      · exact hb (k0, s0) (List.mem_cons_self (k0, s0) r)
      · exact bufInv_modify r (fun p2 hp2 => hb p2 (List.mem_cons_of_mem (k0, s0) hp2))
          k f hf p hp

lemma clearAllStores_bufInv : ∀ (m : StoreMap) {fs : FS} {m2 : StoreMap},
    clearAllStores m fs = some m2 → bufInv m2
  | [], fs, m2, h => by
    simp only [clearAllStores, Option.some.injEq] at h
    rw [← h]
    intro p hp
    cases hp
  | (k0, s0) :: r, fs, m2, h => by
    simp only [clearAllStores] at h
    cases hs : Store.clear s0 fs with
    | none => rw [hs] at h; cases h
    | some s2 =>
      cases hr : clearAllStores r fs with
      | none => rw [hs, hr] at h; cases h
      | some r2 =>
        rw [hs, hr] at h
        cases h
        intro p hp
        rcases List.mem_cons.mp hp with rfl | hp
        · intro _; exact (clear_fields hs).2
        · exact clearAllStores_bufInv r hr p hp

/-- Outcome-level key invariant: an `ok` result keeps the current name a
key of the map, and the lookup panic does not occur at all. -/
def okInv : Outcome → Prop
  | Outcome.ok _ st2 _ => keyInv st2
  | Outcome.lookupCrash => False
  | Outcome.otherCrash => True

/-- The fallthrough arm preserves the key invariant and never reaches a
lookup panic. -/
lemma stepFall_keyInv (c : String) (st : State) (fs : FS) (hk : keyInv st) :
    okInv (gen_fall c st fs) := by
  have hsome : (hmGet st.store st.current_store_name).isSome = true := hk
  obtain ⟨cur, hcur⟩ := Option.isSome_iff_exists.mp hsome
  unfold gen_fall
  by_cases h1 : st.is_adding = true
  · rw [if_pos h1]
    cases hp : parse_line c with
    | ok up =>
      rw [hcur]
      show hmContains (hmModify st.store st.current_store_name _) st.current_store_name = true
      rw [hmContains_modify]
      exact hk
    | bad => exact hk
    | crash => trivial
  rw [if_neg h1]
  by_cases h2 : strStarts c "ADD " = true
  · rw [if_pos h2]
    cases hp : parse_line (strDrop c 3) with
    | ok up =>
      rw [hcur]
      show hmContains (hmModify st.store st.current_store_name _) st.current_store_name = true
      rw [hmContains_modify]
      exact hk
    | bad => exact hk
    | crash => trivial
  rw [if_neg h2]
  by_cases h3 : strStarts c "CREATE " = true
  · rw [if_pos h3]
    exact hmContains_insert_of (strDrop c 7) (initStore st.dtf_folder (strDrop c 7)) hk
  rw [if_neg h3]
  by_cases h4 : strStarts c "USE " = true
  · rw [if_pos h4]
    by_cases h5 : hmContains st.store (strDrop c 4) = true
    · rw [if_pos h5]
      obtain ⟨s3, hs3⟩ := Option.isSome_iff_exists.mp h5
      rw [hs3]
      show hmContains (hmModify st.store (strDrop c 4) _) (strDrop c 4) = true
      rw [hmContains_modify]
      exact h5
    · rw [if_neg h5]
      exact hk
  rw [if_neg h4]
  by_cases h6 : strStarts c "GET " = true
  · rw [if_pos h6]
    cases hn : parseI32 (strDrop c 4).toList with
    | some n =>
      rw [hcur]
      exact hk
    | none => trivial
  rw [if_neg h6]
  exact hk

/-- One command from a state whose current name is a key either succeeds
with the invariant intact or dies on a non-lookup panic: the lookup
`.expect` branch is never taken. -/
lemma step_keyInv (c : String) (st : State) (fs : FS) (hk : keyInv st) :
    okInv (gen_response c st fs) := by
  have hsome : (hmGet st.store st.current_store_name).isSome = true := hk
  obtain ⟨cur, hcur⟩ := Option.isSome_iff_exists.mp hsome
  unfold gen_response
  by_cases h1 : c = ""
  · rw [if_pos h1]; exact hk
  rw [if_neg h1]
  by_cases h2 : c = "PING"
  · rw [if_pos h2]; exact hk
  rw [if_neg h2]
  by_cases h3 : c = "HELP"
  · rw [if_pos h3]; exact hk
  rw [if_neg h3]
  by_cases h4 : c = "INFO"
  · rw [if_pos h4]; exact hk
  rw [if_neg h4]
  by_cases h5 : c = "BULKADD"
  · rw [if_pos h5]; exact hk
  rw [if_neg h5]
  by_cases h6 : c = "DDAKLUB"
  · rw [if_pos h6]; exact hk
  rw [if_neg h6]
  by_cases h7 : c = "GETALL"
  · rw [if_pos h7, hcur]; exact hk
  rw [if_neg h7]
  by_cases h8 : c = "CLEAR"
  · rw [if_pos h8, hcur]
    dsimp only
    cases hcl : cur.clear fs with
    | none => trivial
    | some cur2 =>
      show hmContains (hmModify st.store st.current_store_name _) st.current_store_name = true
      rw [hmContains_modify]
      exact hk
  rw [if_neg h8]
  by_cases h9 : c = "CLEARALL"
  · rw [if_pos h9]
    cases hca : clearAllStores st.store fs with
    | none => trivial
    | some m2 =>
      show (hmGet m2 st.current_store_name).isSome = true
      rw [clearAllStores_isSome st.store hca]
      exact hsome
  rw [if_neg h9]
  by_cases h10 : c = "FLUSH"
  · rw [if_pos h10, hcur]; exact hk
  rw [if_neg h10]
  by_cases h11 : c = "FLUSHALL"
  · rw [if_pos h11]; exact hk
  rw [if_neg h11]
  exact stepFall_keyInv c st fs hk

/-- Run-level consequence: from a state satisfying the key invariant, no
command sequence ever reaches the current-store-lookup panic. -/
lemma run_keyInv : ∀ (cmds : List String) (st : State) (fs : FS), keyInv st →
    lookupCrashed (run st fs cmds) = false
  | [], _, _, _ => rfl
  | c :: cs, st, fs, hk => by
    have hstep := step_keyInv c st fs hk
    simp only [run]
    cases hg : gen_response c st fs with
    | ok r st2 fs2 =>
      rw [hg] at hstep
      exact run_keyInv cs st2 fs2 hstep
    | lookupCrash =>
      rw [hg] at hstep
      cases hstep
    | otherCrash => rfl

lemma init_dbs_contains (folder : String) :
    ∀ (scanned : List (String × Nat)) (m : StoreMap) (k : String),
    hmContains m k = true → hmContains (init_dbs folder scanned m) k = true
  | [], _, _, h => h
  | p :: ps, _, k, h =>
    init_dbs_contains folder ps _ k
      (hmContains_insert_of p.1 { initStore folder p.1 with size := p.2 } h)

lemma keyInv_init (folder : String) (scanned : List (String × Nat)) :
    keyInv (initState folder scanned) := by
  unfold keyInv initState
  exact init_dbs_contains folder scanned _ "default" (by simp [hmContains, hmInsert, hmGet])

/-- The literal commands of the `gen_response` match
(`src/server.rs:159-202`): lines that are dispatched before the `_` arm
is ever consulted. -/
def isLiteralCmd (c : String) : Bool :=
  c == "" || c == "PING" || c == "HELP" || c == "INFO" || c == "BULKADD" || c == "DDAKLUB" ||
    c == "GETALL" || c == "CLEAR" || c == "CLEARALL" || c == "FLUSH" || c == "FLUSHALL"

/-- `true` when this line, in this state, reaches one of the two
record-ingest paths (the bulk-mode arm or the `ADD ` command). -/
def addsRecord (st : State) (c : String) : Bool :=
  !isLiteralCmd c && (st.is_adding || strStarts c "ADD ")

/-- `true` when no command of the list, run from this state, reaches a
record-ingest path. -/
def addFreeRun : State → FS → List String → Bool
  | _, _, [] => true
  | st, fs, c :: cs =>
    !addsRecord st c &&
      (match gen_response c st fs with
       | Outcome.ok _ st2 fs2 => addFreeRun st2 fs2 cs
       | _ => true)

/-- The fallthrough arm, when it does not ingest a record, preserves the
empty-buffer invariant. -/
lemma stepFall_bufInv (c : String) (st : State) (fs : FS) (r : Option String) (st2 : State)
    (fs2 : FS) (hb : bufInv st.store) (hia : st.is_adding = false)
    (hnadd : strStarts c "ADD " = false) (h : gen_fall c st fs = Outcome.ok r st2 fs2) :
    bufInv st2.store := by
  unfold gen_fall at h
  have h1 : ¬ st.is_adding = true := by simp [hia]
  rw [if_neg h1] at h
  have h2 : ¬ strStarts c "ADD " = true := by simp [hnadd]
  rw [if_neg h2] at h
  by_cases h3 : strStarts c "CREATE " = true
  · rw [if_pos h3] at h
    cases h
    exact bufInv_insert st.store hb _ _ (fun _ => rfl)
  rw [if_neg h3] at h
  by_cases h4 : strStarts c "USE " = true
  · rw [if_pos h4] at h
    by_cases h5 : hmContains st.store (strDrop c 4) = true
    · rw [if_pos h5] at h
      obtain ⟨s3, hs3⟩ := Option.isSome_iff_exists.mp h5
      rw [hs3] at h
      cases h
      exact bufInv_modify st.store hb _ _ (fun s hs => load_pres hs)
    · rw [if_neg h5] at h
      cases h
      exact hb
  rw [if_neg h4] at h
  by_cases h6 : strStarts c "GET " = true
  · rw [if_pos h6] at h
    cases hn : parseI32 (strDrop c 4).toList with
    | some n =>
      rw [hn] at h
      cases hg : hmGet st.store st.current_store_name with
      | some cur =>
        rw [hg] at h
        cases h
        exact hb
      | none => rw [hg] at h; cases h
    | none => rw [hn] at h; cases h
  rw [if_neg h6] at h
  cases h
  exact hb

/-- One non-ingesting command preserves the empty-buffer invariant. -/
lemma step_bufInv (c : String) (st : State) (fs : FS) (r : Option String) (st2 : State)
    (fs2 : FS) (hb : bufInv st.store) (hna : addsRecord st c = false)
    (h : gen_response c st fs = Outcome.ok r st2 fs2) : bufInv st2.store := by
  unfold gen_response at h
  by_cases h1 : c = ""
  · rw [if_pos h1] at h; cases h; exact hb
  rw [if_neg h1] at h
  by_cases h2 : c = "PING"
  · rw [if_pos h2] at h; cases h; exact hb
  rw [if_neg h2] at h
  by_cases h3 : c = "HELP"
  · rw [if_pos h3] at h; cases h; exact hb
  rw [if_neg h3] at h
  by_cases h4 : c = "INFO"
  · rw [if_pos h4] at h; cases h; exact hb
  rw [if_neg h4] at h
  by_cases h5 : c = "BULKADD"
  · rw [if_pos h5] at h; cases h; exact hb
  rw [if_neg h5] at h
  by_cases h6 : c = "DDAKLUB"
  · rw [if_pos h6] at h; cases h; exact hb
  rw [if_neg h6] at h
  by_cases h7 : c = "GETALL"
  · rw [if_pos h7] at h
    cases hg : hmGet st.store st.current_store_name with
    | some cur => rw [hg] at h; cases h; exact hb
    | none => rw [hg] at h; cases h
  rw [if_neg h7] at h
  by_cases h8 : c = "CLEAR"
  · rw [if_pos h8] at h
    cases hg : hmGet st.store st.current_store_name with
    | some cur =>
      rw [hg] at h
      dsimp only at h
      cases hcl : cur.clear fs with
      | some cur2 =>
        rw [hcl] at h
        cases h
        exact bufInv_modify st.store hb _ _ (fun s _ _ => (clear_fields hcl).2)
      | none => rw [hcl] at h; cases h
    | none => rw [hg] at h; cases h
  rw [if_neg h8] at h
  by_cases h9 : c = "CLEARALL"
  · rw [if_pos h9] at h
    cases hca : clearAllStores st.store fs with
    | some m2 =>
      rw [hca] at h
      cases h
      exact clearAllStores_bufInv st.store hca
    | none => rw [hca] at h; cases h
  rw [if_neg h9] at h
  by_cases h10 : c = "FLUSH"
  · rw [if_pos h10] at h
    cases hg : hmGet st.store st.current_store_name with
    | some cur => rw [hg] at h; cases h; exact hb
    | none => rw [hg] at h; cases h
  rw [if_neg h10] at h
  by_cases h11 : c = "FLUSHALL"
  · rw [if_pos h11] at h; cases h; exact hb
  rw [if_neg h11] at h
  have hlit : isLiteralCmd c = false := by
    simp [isLiteralCmd, h1, h2, h3, h4, h5, h6, h7, h8, h9, h10, h11]
  rw [addsRecord, hlit] at hna
  simp only [Bool.not_false, Bool.true_and, Bool.or_eq_false_iff] at hna
  exact stepFall_bufInv c st fs r st2 fs2 hb hna.1 hna.2 h

/-- Run-level consequence: an ingest-free command sequence keeps every
store's buffer empty whenever its `in_memory` flag is false. -/
lemma run_bufInv : ∀ (cmds : List String) (st : State) (fs : FS) (st2 : State) (fs2 : FS),
    bufInv st.store → addFreeRun st fs cmds = true → run st fs cmds = RunRes.ok st2 fs2 →
    bufInv st2.store
  | [], st, fs, st2, fs2, hb, _, h => by
    simp only [run, RunRes.ok.injEq] at h
    rw [← h.1]
    exact hb
  | c :: cs, st, fs, st2, fs2, hb, hf, h => by
    simp only [addFreeRun, Bool.and_eq_true, Bool.not_eq_true'] at hf
    obtain ⟨hna, hrest⟩ := hf
    simp only [run] at h
    cases hg : gen_response c st fs with
    | ok r stm fsm =>
      rw [hg] at h hrest
      exact run_bufInv cs stm fsm st2 fs2 (step_bufInv c st fs r stm fsm hb hna hg) hrest h
    | lookupCrash => rw [hg] at h; cases h
    | otherCrash => rw [hg] at h; cases h

lemma init_dbs_bufInv (folder : String) :
    ∀ (scanned : List (String × Nat)) (m : StoreMap),
    bufInv m → bufInv (init_dbs folder scanned m)
  | [], _, hb => hb
  | p :: ps, m, hb =>
    init_dbs_bufInv folder ps _ (bufInv_insert m hb p.1 _ (fun _ => rfl))

lemma bufInv_init (folder : String) (scanned : List (String × Nat)) :
    bufInv (initState folder scanned).store := by
  unfold initState
  refine init_dbs_bufInv folder scanned _ ?_
  refine bufInv_insert [] (fun p hp => absurd hp (List.not_mem_nil p)) "default" _ (fun _ => rfl)

/-- The fallthrough arm answers `None` (Rust: `return None`, printed as
`ERR.`) only from the two record-parse failures, and then leaves the
session state and the files untouched. -/
lemma respNoneFall_unchanged (c : String) (st : State) (fs : FS) (st2 : State) (fs2 : FS)
    (h : gen_fall c st fs = Outcome.ok none st2 fs2) : st2 = st ∧ fs2 = fs := by
  unfold gen_fall at h
  by_cases h1 : st.is_adding = true
  · rw [if_pos h1] at h
    cases hp : parse_line c with
    | ok up =>
      rw [hp] at h
      cases hg : hmGet st.store st.current_store_name with
      | some cur => rw [hg] at h; simp at h
      | none => rw [hg] at h; cases h
    | bad =>
      rw [hp] at h
      cases h
      exact ⟨rfl, rfl⟩
    | crash => rw [hp] at h; cases h
  rw [if_neg h1] at h
  by_cases h2 : strStarts c "ADD " = true
  · rw [if_pos h2] at h
    cases hp : parse_line (strDrop c 3) with
    | ok up =>
      rw [hp] at h
      cases hg : hmGet st.store st.current_store_name with
      | some cur => rw [hg] at h; simp at h
      | none => rw [hg] at h; cases h
    | bad =>
      rw [hp] at h
      cases h
      exact ⟨rfl, rfl⟩
    | crash => rw [hp] at h; cases h
  rw [if_neg h2] at h
  by_cases h3 : strStarts c "CREATE " = true
  · rw [if_pos h3] at h
    simp at h
  rw [if_neg h3] at h
  by_cases h4 : strStarts c "USE " = true
  · rw [if_pos h4] at h
    by_cases h5 : hmContains st.store (strDrop c 4) = true
    · rw [if_pos h5] at h
      obtain ⟨s3, hs3⟩ := Option.isSome_iff_exists.mp h5
      rw [hs3] at h
      simp at h
    · rw [if_neg h5] at h
      simp at h
  rw [if_neg h4] at h
  by_cases h6 : strStarts c "GET " = true
  · rw [if_pos h6] at h
    cases hn : parseI32 (strDrop c 4).toList with
    | some n =>
      rw [hn] at h
      cases hg : hmGet st.store st.current_store_name with
      | some cur => rw [hg] at h; simp at h
      | none => rw [hg] at h; cases h
    | none => rw [hn] at h; cases h
  rw [if_neg h6] at h
  simp at h

/-- `gen_response` answers `None` only on a malformed record line, and
then the state and the files are exactly what they were: no partial
`Update` is ever added. -/
lemma respNone_unchanged (c : String) (st : State) (fs : FS) (st2 : State) (fs2 : FS)
    (h : gen_response c st fs = Outcome.ok none st2 fs2) : st2 = st ∧ fs2 = fs := by
  unfold gen_response at h
  by_cases h1 : c = ""
  · rw [if_pos h1] at h; simp at h
  rw [if_neg h1] at h
  by_cases h2 : c = "PING"
  · rw [if_pos h2] at h; simp at h
  rw [if_neg h2] at h
  by_cases h3 : c = "HELP"
  · rw [if_pos h3] at h; simp at h
  rw [if_neg h3] at h
  by_cases h4 : c = "INFO"
  · rw [if_pos h4] at h; simp at h
  rw [if_neg h4] at h
  by_cases h5 : c = "BULKADD"
  · rw [if_pos h5] at h; simp at h
  rw [if_neg h5] at h
  by_cases h6 : c = "DDAKLUB"
  · rw [if_pos h6] at h; simp at h
  rw [if_neg h6] at h
  by_cases h7 : c = "GETALL"
  · rw [if_pos h7] at h
    cases hg : hmGet st.store st.current_store_name with
    | some cur => rw [hg] at h; simp at h
    | none => rw [hg] at h; cases h
  rw [if_neg h7] at h
  by_cases h8 : c = "CLEAR"
  · rw [if_pos h8] at h
    cases hg : hmGet st.store st.current_store_name with
    | some cur =>
      rw [hg] at h
      dsimp only at h
      cases hcl : cur.clear fs with
      | some cur2 => rw [hcl] at h; simp at h
      | none => rw [hcl] at h; cases h
    | none => rw [hg] at h; cases h
  rw [if_neg h8] at h
  by_cases h9 : c = "CLEARALL"
  · rw [if_pos h9] at h
    cases hca : clearAllStores st.store fs with
    | some m2 => rw [hca] at h; simp at h
    | none => rw [hca] at h; cases h
  rw [if_neg h9] at h
  by_cases h10 : c = "FLUSH"
  · rw [if_pos h10] at h
    cases hg : hmGet st.store st.current_store_name with
    | some cur => rw [hg] at h; simp at h
    | none => rw [hg] at h; cases h
  rw [if_neg h10] at h
  by_cases h11 : c = "FLUSHALL"
  · rw [if_pos h11] at h; simp at h
  rw [if_neg h11] at h
  exact respNoneFall_unchanged c st fs st2 fs2 h

/-- A line that is none of the literal commands falls through to the `_`
arm. -/
lemma gen_response_nonlit (c : String) (st : State) (fs : FS)
    (hlit : isLiteralCmd c = false) : gen_response c st fs = gen_fall c st fs := by
  simp only [isLiteralCmd, Bool.or_eq_false_iff, beq_eq_false_iff_ne, ne_eq] at hlit
  obtain ⟨⟨⟨⟨⟨⟨⟨⟨⟨⟨h1, h2⟩, h3⟩, h4⟩, h5⟩, h6⟩, h7⟩, h8⟩, h9⟩, h10⟩, h11⟩ := hlit
  unfold gen_response
  rw [if_neg h1, if_neg h2, if_neg h3, if_neg h4, if_neg h5, if_neg h6, if_neg h7, if_neg h8,
    if_neg h9, if_neg h10, if_neg h11]

/-! ### Concrete fixtures for counterexamples and witnesses -/

/-- The update parsed from `" 1.0, 2, t, f, 3.0, 4.0;"`. -/
def u0 : Update :=
  { ts := 10, seq := 2, is_trade := true, is_bid := false, price := "3.0", sz := "4.0" }

/-- The update of the source's own `should_parse_string_okay` test. -/
def upd1 : Update :=
  { ts := 1505177459658, seq := 139010, is_trade := false, is_bid := true,
    price := "0.0703629", sz := "7.65064249" }

/-- A fresh session over folder `f` with only the `default` store. -/
def stW : State :=
  { is_adding := false, store := [("default", initStore "f" "default")],
    current_store_name := "default", dtf_folder := "f" }

/-- The same session in bulk-add mode. -/
def stBulk : State :=
  { stW with is_adding := true }

/-! ### Claim theorems -/

/-- Claim C1, counterexample.  The claim says `add` sets `in_memory` to
true and that a successful `ADD` command applies exactly `add` (so
increments `size`).  In fact `Store::add` leaves `in_memory` untouched
(here: still `false`), and the `ADD` command pushes directly onto `v`,
leaving `size` at 0 after a successful add of one record. -/
theorem c1_counterexample :
    (Store.add (initStore "f" "default") u0).in_memory = false
    ∧ gen_response "ADD 1.0, 2, t, f, 3.0, 4.0;" stW []
        = Outcome.ok (some "1\n")
            { stW with
              store := [("default",
                { name := "default", folder := "f", in_memory := false, size := 0, v := [u0] })] }
            [] :=
  ⟨rfl, by decide⟩

/-- Claim C1, amended.  `Store::add` appends to the buffer and
increments `size` by one but leaves `in_memory` unchanged; a successful
`ADD <record>` command parses the slice from position 3 and pushes the
update directly onto the current store's buffer — bypassing `add`, so
`size` and `in_memory` are unchanged — and answers `1\n`. -/
theorem c1_amended :
    (∀ (s : Store) (u : Update),
      (s.add u).v = s.v ++ [u] ∧ (s.add u).size = s.size + 1
        ∧ (s.add u).in_memory = s.in_memory)
    ∧ (∀ (c : String) (st : State) (fs : FS) (u : Update) (cur : Store),
        isLiteralCmd c = false → st.is_adding = false → strStarts c "ADD " = true →
        parse_line (strDrop c 3) = PRes.ok u →
        hmGet st.store st.current_store_name = some cur →
        gen_response c st fs
          = Outcome.ok (some "1\n")
              { st with store := hmModify st.store st.current_store_name
                                   (fun s => { s with v := s.v ++ [u] }) } fs
        ∧ hmGet (hmModify st.store st.current_store_name
            (fun s => { s with v := s.v ++ [u] })) st.current_store_name
            = some { cur with v := cur.v ++ [u] }) := by
  constructor
  · exact fun s u => ⟨rfl, rfl, rfl⟩
  · intro c st fs u cur hlit hia hst hp hcur
    constructor
    · rw [gen_response_nonlit c st fs hlit]
      unfold gen_fall
      rw [if_neg (by simp [hia]), if_pos hst, hp, hcur]
    · rw [hmGet_modify, if_pos rfl, hcur, Option.map_some']

/-- Claim C1, witness: the amended statement applied to the concrete
command `ADD 1.0, 2, t, f, 3.0, 4.0;` on a fresh session. -/
theorem c1_witness :
    (Store.add (initStore "f" "default") u0).in_memory = (initStore "f" "default").in_memory
    ∧ gen_response "ADD 1.0, 2, t, f, 3.0, 4.0;" stW []
        = Outcome.ok (some "1\n")
            { stW with store := hmModify stW.store "default"
                                  (fun s => { s with v := s.v ++ [u0] }) } [] :=
  ⟨(c1_amended.1 (initStore "f" "default") u0).2.2,
   (c1_amended.2 "ADD 1.0, 2, t, f, 3.0, 4.0;" stW [] u0 (initStore "f" "default")
      (by decide) rfl (by decide) (by decide) (by decide)).1⟩

/-- Claim C3, counterexample.  In bulk mode (`is_adding = true`) the line
`PING` is still dispatched as the `PING` command — it answers `PONG.\n`
and changes nothing — even though `parse_line` would happily accept it
(`PRes.ok initU`), so it is not treated as a record line as the claim
demands. -/
theorem c3_counterexample :
    gen_response "PING" stBulk [] = Outcome.ok (some "PONG.\n") stBulk []
    ∧ parse_line "PING" = PRes.ok initU :=
  ⟨by decide, by decide⟩

/-- Claim C3, amended.  In bulk mode, every line that is not one of the
literal commands (`""`, `PING`, `HELP`, `INFO`, `BULKADD`, `DDAKLUB`,
`GETALL`, `CLEAR`, `CLEARALL`, `FLUSH`, `FLUSHALL`) is treated purely as
a record line: parsed, appended via `add` on success, an error response
on failure — never dispatched as `ADD`/`CREATE`/`USE`/`GET` or as the
unknown-command error.  The literal commands, however, keep their
command meaning even in bulk mode. -/
theorem c3_amended (c : String) (st : State) (fs : FS) (cur : Store)
    (hlit : isLiteralCmd c = false) (hbulk : st.is_adding = true)
    (hcur : hmGet st.store st.current_store_name = some cur) :
    gen_response c st fs =
      match parse_line c with
      | PRes.ok up =>
        Outcome.ok (some "")
          { st with store := hmModify st.store st.current_store_name (fun s => s.add up) } fs
      | PRes.bad => Outcome.ok none st fs
      | PRes.crash => Outcome.otherCrash := by
  rw [gen_response_nonlit c st fs hlit]
  unfold gen_fall
  rw [if_pos hbulk]
  cases hp : parse_line c with
  | ok up => rw [hcur]
  | bad => rfl
  | crash => rfl

/-- Claim C3, witness: in bulk mode even the line `USE foo` is consumed
as a record line (its characters parse to the all-default update, which
gets appended). -/
theorem c3_witness :
    gen_response "USE foo" stBulk []
      = Outcome.ok (some "")
          { stBulk with store := hmModify stBulk.store "default" (fun s => s.add initU) } [] := by
  have h := c3_amended "USE foo" stBulk [] (initStore "f" "default") (by decide) rfl (by decide)
  rw [show parse_line "USE foo" = PRes.ok initU from by decide] at h
  exact h

/-- Claim C5, counterexample.  A record line missing its terminating `;`
that delivered only one of six fields is not reported malformed:
`parse_line` returns an `Update` whose undelivered fields keep their
initial defaults. -/
theorem c5_counterexample :
    parse_line "1505177459.658, 139010" = PRes.ok { initU with ts := 1505177459658 } := by
  decide

/-- Claim C5, amended.  A missing `;` by itself never causes a malformed
report: a line with no `,` or `;` at all parses to the initial all-default
update, and a line whose delivered fields all parse yields an update with
the undelivered fields left at their defaults (concrete second conjunct).
The second half of the claim stands: whenever `gen_response` does report
a malformed line (the `None` response), the session state and the files
are unchanged — no partial update is ever added. -/
theorem c5_amended :
    (∀ s : String, (∀ ch ∈ s.toList, ¬ ch = ',' ∧ ¬ ch = ';') → parse_line s = PRes.ok initU)
    ∧ parse_line "1505177459.658, 139010" = PRes.ok { initU with ts := 1505177459658 }
    ∧ (∀ (c : String) (st : State) (fs : FS) (st2 : State) (fs2 : FS),
        gen_response c st fs = Outcome.ok none st2 fs2 → st2 = st ∧ fs2 = fs) :=
  ⟨fun s h => scanNoTerm s.toList initU [] 0 false h, by decide,
   fun c st fs st2 fs2 h => respNone_unchanged c st fs st2 fs2 h⟩

/-- Claim C5, witness: the no-terminator conjunct applied to `PING`, and
the unchanged-state conjunct applied to the malformed `ADD ,;`. -/
theorem c5_witness :
    parse_line "PING" = PRes.ok initU ∧ stW = stW :=
  ⟨c5_amended.1 "PING" (by decide),
   (c5_amended.2.2 "ADD ,;" stW [] stW [] (by decide)).1⟩

/-- Claim C4, confirmed.  For a `ts` field written as digits, one decimal
point, digits, the parsed `ts` is the decimal value of the two digit
groups concatenated — whatever the rest of the line is, if the parse
succeeds at all; and the spec's concrete example parses to
`ts = 1505177459658` (the source's own `should_parse_string_okay`). -/
theorem c4 (d1 d2 rest : List Char)
    (h1 : ∀ ch ∈ d1, ch.isDigit = true) (h2 : ∀ ch ∈ d2, ch.isDigit = true)
    (h3 : ¬ d1 ++ d2 = []) (h4 : digitsVal (d1 ++ d2) < 2 ^ 64) :
    (∀ u', parse_line (String.mk (d1 ++ ('.' :: (d2 ++ (',' :: rest))))) = PRes.ok u' →
      u'.ts = digitsVal (d1 ++ d2))
    ∧ parse_line "1505177459.658, 139010, f, t, 0.0703629, 7.65064249;" = PRes.ok upd1 := by
  constructor
  · intro u' hu
    have hstep : parse_line (String.mk (d1 ++ ('.' :: (d2 ++ (',' :: rest)))))
        = plGo (d1 ++ ('.' :: (d2 ++ (',' :: rest)))) initU [] 0 false := rfl
    rw [hstep, scanTs d1 ('.' :: (d2 ++ (',' :: rest))) initU [] false
        (fun ch hm => Or.inl (h1 ch hm)), plGo_dot_zero,
      scanTs d2 (',' :: rest) initU _ false (fun ch hm => Or.inl (h2 ch hm)),
      plGo_term_zero (Or.inl rfl), List.filter_eq_self.mpr h1, List.filter_eq_self.mpr h2,
      List.nil_append] at hu
    rw [parseU_digits h3
        (fun ch hc => (List.mem_append.mp hc).elim (h1 ch) (h2 ch)) h4] at hu
    exact ts_stable rest _ [] 1 false u' (le_refl 1) hu
  · decide

/-- Claim C4, witness: the general conjunct applied to the split
`10` = `1` · `.` · `0` of the line `1.0, 1, t, t, 1, 1;`, and the
concrete conjunct itself. -/
theorem c4_witness :
    ({ ts := 10, seq := 1, is_trade := true, is_bid := true, price := "1", sz := "1" }
        : Update).ts = 10
    ∧ parse_line "1505177459.658, 139010, f, t, 0.0703629, 7.65064249;" = PRes.ok upd1 :=
  ⟨(c4 ['1'] ['0'] " 1, t, t, 1, 1;".toList (by decide) (by decide) (by decide) (by decide)).1
      { ts := 10, seq := 1, is_trade := true, is_bid := true, price := "1", sz := "1" }
      (by decide),
   (c4 ['1'] ['0'] " 1, t, t, 1, 1;".toList (by decide) (by decide) (by decide) (by decide)).2⟩

/-- Claim C6, counterexample.  A `ts` field with zero decimal points
(`1000`) and one with two decimal points (`15.05.1`) both parse
successfully — no malformed report, contrary to the claim. -/
theorem c6_counterexample :
    parse_line "1000, 1, t, t, 1.0, 2.0;"
      = PRes.ok { ts := 1000, seq := 1, is_trade := true, is_bid := true,
                  price := "1.0", sz := "2.0" }
    ∧ parse_line "15.05.1, 1, t, t, 1.0, 2.0;"
      = PRes.ok { ts := 15051, seq := 1, is_trade := true, is_bid := true,
                  price := "1.0", sz := "2.0" } :=
  ⟨by decide, by decide⟩

/-- Claim C6, amended.  Every decimal point in the `ts` field is removed,
however many there are (the loop skips `.` whenever the field counter is
0): a `ts` field of digits and any number of dots parses to the decimal
value of its digits alone; it is malformed only when the digit string is
empty or its value does not fit in a `u64`. -/
theorem c6_amended (l rest : List Char)
    (hch : ∀ ch ∈ l, ch.isDigit = true ∨ ch = '.')
    (hne : ¬ l.filter Char.isDigit = [])
    (hlt : digitsVal (l.filter Char.isDigit) < 2 ^ 64) :
    ∀ u', parse_line (String.mk (l ++ ',' :: rest)) = PRes.ok u' →
      u'.ts = digitsVal (l.filter Char.isDigit) := by
  intro u' hu
  have hstep : parse_line (String.mk (l ++ ',' :: rest))
      = plGo (l ++ ',' :: rest) initU [] 0 false := rfl
  rw [hstep, scanTs l (',' :: rest) initU [] false hch, List.nil_append,
    plGo_term_zero (Or.inl rfl),
    parseU_digits hne (fun ch hc => List.of_mem_filter hc) hlt] at hu
  exact ts_stable rest _ [] 1 false u' (le_refl 1) hu

/-- Claim C6, witness: the amended statement applied to the two-dot field
`15.05.1`. -/
theorem c6_witness :
    ({ ts := 15051, seq := 1, is_trade := true, is_bid := true, price := "1.0", sz := "2.0" }
        : Update).ts = 15051 :=
  c6_amended "15.05.1".toList " 1, t, t, 1.0, 2.0;".toList (by decide) (by decide) (by decide)
    { ts := 15051, seq := 1, is_trade := true, is_bid := true, price := "1.0", sz := "2.0" }
    (by decide)

/-- Claim C7, counterexample.  Flag fields `x` and `y` do not make the
line malformed: the unrecognised characters are silently skipped and both
flags come out as the current `most_current_bool` (initially `false`). -/
theorem c7_counterexample :
    parse_line "1.0, 1, x, y, 2.0, 3.0;"
      = PRes.ok { ts := 10, seq := 1, is_trade := false, is_bid := false,
                  price := "2.0", sz := "3.0" } := by
  decide

/-- Claim C7, amended.  A flag field never causes a malformed report,
whatever characters it holds: digits and dots are buffered and then
discarded, anything else is skipped, and the committed flag value is that
of the last `t`/`f` seen so far in the line (`most_current_bool`, which
starts `false`), both for `is_trade` (field 2) and `is_bid` (field 3). -/
theorem c7_amended (l rest : List Char) (u : Update) (buf : List Char) (mcb : Bool)
    (h : ∀ ch ∈ l, ¬ ch = ',' ∧ ¬ ch = ';') :
    plGo (l ++ ',' :: rest) u buf 2 mcb
      = plGo rest { u with is_trade := lastTF l mcb } [] 3 (lastTF l mcb)
    ∧ plGo (l ++ ',' :: rest) u buf 3 mcb
      = plGo rest { u with is_bid := lastTF l mcb } [] 4 (lastTF l mcb) := by
  obtain ⟨buf2, h2⟩ := scanField l (',' :: rest) u buf 2 mcb (by decide) h
  obtain ⟨buf3, h3⟩ := scanField l (',' :: rest) u buf 3 mcb (by decide) h
  constructor
  · rw [h2, plGo_term_two (Or.inl rfl)]
  · rw [h3, plGo_term_three (Or.inl rfl)]

/-- Claim C7, witness: the amended statement applied to the flag field
`xt1y`, whose last `t`/`f` is `t`. -/
theorem c7_witness :
    plGo ("xt1y".toList ++ ',' :: " t, 1, 2;".toList) initU [] 2 false
      = plGo " t, 1, 2;".toList { initU with is_trade := true } [] 3 true :=
  (c7_amended "xt1y".toList " t, 1, 2;".toList initU [] false (by decide)).1

/-- Claim C2, counterexample.  Two commands from a fresh session —
`BULKADD` and one valid record line — reach a `default` store whose
`in_memory` flag is false while its buffer holds one update: `add` never
sets `in_memory`, so the claimed invariant fails on reachable states. -/
theorem c2_counterexample :
    run (initState "f" []) [] ["BULKADD", "1505177459.658, 139010, f, t, 0.0703629, 7.65064249;"]
      = RunRes.ok
          { is_adding := true,
            store := [("default",
              { name := "default", folder := "f", in_memory := false, size := 1, v := [upd1] })],
            current_store_name := "default", dtf_folder := "f" } []
    ∧ ({ name := "default", folder := "f", in_memory := false, size := 1, v := [upd1] }
        : Store).in_memory = false
    ∧ ({ name := "default", folder := "f", in_memory := false, size := 1, v := [upd1] }
        : Store).v = [upd1] :=
  ⟨by decide, rfl, rfl⟩

/-- Claim C2, amended.  The invariant holds for every store reachable by
a command sequence that never reaches a record-ingest path (no bulk-mode
record line and no `ADD ` command): after any such run, every store whose
`in_memory` flag is false has an empty buffer.  (The unrestricted claim
fails because `add` leaves `in_memory` false — see the counterexample.) -/
theorem c2_amended (folder : String) (scanned : List (String × Nat)) (fs : FS)
    (cmds : List String) (st2 : State) (fs2 : FS)
    (hfree : addFreeRun (initState folder scanned) fs cmds = true)
    (hrun : run (initState folder scanned) fs cmds = RunRes.ok st2 fs2) :
    ∀ p ∈ st2.store, p.2.in_memory = false → p.2.v = [] :=
  run_bufInv cmds (initState folder scanned) fs st2 fs2 (bufInv_init folder scanned) hfree hrun

/-- The session state after `CREATE foo`, `USE foo`, `GETALL`, `PING`
from a fresh session over folder `f` with no files. -/
def stAfter : State :=
  { is_adding := false,
    store := [("default", initStore "f" "default"), ("foo", initStore "f" "foo")],
    current_store_name := "foo", dtf_folder := "f" }

/-- Claim C2, witness: the amended statement applied to the ingest-free
run `CREATE foo`, `USE foo`, `GETALL`, `PING`. -/
theorem c2_witness : (initStore "f" "foo").v = [] :=
  c2_amended "f" [] [] ["CREATE foo", "USE foo", "GETALL", "PING"] stAfter [] (by decide)
    (by decide) ("foo", initStore "f" "foo") (by decide) rfl

/-- The file `f/s.dtf` with five records, and the store bound to it. -/
def fileS : DtfFile :=
  ⟨"s", [upd1, upd1, upd1, upd1, upd1]⟩

def fs8 : FS :=
  [("f/s.dtf", fileS)]

def store8 : Store :=
  { name := "s", folder := "f", in_memory := true, size := 5, v := fileS.recs }

/-- Claim C8, code bug.  `clear` empties the buffer and drops
`in_memory`, but `load_size_from_file` reads the header of
`<folder>/<name>` — without the `.dtf` extension that `flush`, `load` and
`init_dbs` all use — and it has no file-missing fallback to 0.  With
`f/s.dtf` present and holding five records, `clear` fails
(`dtf::get_size` on the nonexistent path `f/s`) instead of setting
`size = 5`; and a store with no file at all also fails instead of
getting `size = 0`. -/
theorem c8_bug :
    Store.clear store8 fs8 = none
    ∧ get_size fs8 "f/s.dtf" = some 5
    ∧ get_size fs8 "f/s" = none
    ∧ Store.clear (initStore "f" "x") [] = none :=
  ⟨by decide, by decide, by decide, by decide⟩

/-- Claim C9, confirmed.  Over the `i32` range of `GET` counts and the
representable buffer lengths of a Rust `Vec` (at most `2 ^ 63` elements),
`to_string` renders the first `count` entries when `count ≥ 0`, and all
entries for every negative `count` — not only `-1`: a negative count is
cast `as usize`, which wraps to at least `2 ^ 64 - 2 ^ 31`, so `take`
keeps the whole buffer. -/
theorem c9 (s : Store) (count : Int) (hlo : -(2 ^ 31) ≤ count) (hhi : count < 2 ^ 31)
    (hlen : s.v.length ≤ 2 ^ 63) :
    (0 ≤ count → s.to_string count
        = "[" ++ String.intercalate "," ((s.v.take count.toNat).map to_json) ++ "]\n")
    ∧ (count < 0 → s.to_string count
        = "[" ++ String.intercalate "," (s.v.map to_json) ++ "]\n") := by
  have h64 : (2 : Int) ^ 64 = 18446744073709551616 := by norm_num
  have h31 : (2 : Int) ^ 31 = 2147483648 := by norm_num
  have h63 : ((2 : Nat) ^ 63 : Nat) = 9223372036854775808 := by norm_num
  rw [h31] at hlo hhi
  rw [h63] at hlen
  constructor
  · intro hpos
    have hne : ¬ count = -1 := by omega
    unfold Store.to_string
    rw [if_neg hne]
    have hcast : iAsUsize count = count.toNat := by
      unfold iAsUsize
      rw [h64]
      omega
    rw [hcast]
  · intro hneg
    by_cases hone : count = -1
    · unfold Store.to_string
      rw [if_pos hone]
    · unfold Store.to_string
      rw [if_neg hone]
      have htake : s.v.length ≤ iAsUsize count := by
        unfold iAsUsize
        rw [h64]
        omega
      rw [List.take_of_length_le htake]

/-- The two-record store used as the C9 witness. -/
def storeW : Store :=
  { initStore "f" "w" with v := [upd1, u0] }

/-- Claim C9, witness: `to_string (-2)` (a negative count other than -1)
renders the whole two-record buffer. -/
theorem c9_witness :
    storeW.to_string (-2)
      = "[" ++ String.intercalate "," (storeW.v.map to_json) ++ "]\n" :=
  (c9 storeW (-2) (by decide) (by decide) (by decide)).2 (by decide)

/-- Claim C10, confirmed.  From session initialization (which inserts the
`default` store and makes it current) every command sequence — over any
scanned folder contents and any files — keeps the current store name a
key of the store map (`USE` only switches to keys it just checked,
inserts never remove), so the current-store `.unwrap()` /
`.expect("KEY IS NOT IN HASHMAP")` lookups of `GETALL`, `GET`, `CLEAR`,
`FLUSH`, `ADD` and bulk-mode record lines never reach their panic
branch. -/
theorem c10 (folder : String) (scanned : List (String × Nat)) (fs : FS)
    (cmds : List String) :
    lookupCrashed (run (initState folder scanned) fs cmds) = false :=
  run_keyInv cmds (initState folder scanned) fs (keyInv_init folder scanned)

end Tectonic
